import Mathlib

/-!
Verification of the route loader/matcher and static-asset guard of the
`skill-bun-server` starter template (`src/utils/loadRoutes.ts`,
`src/utils/staticAssets.ts`, `src/index.ts`).

The TypeScript code is shallowly embedded: JS strings are Lean `String`s,
JS objects (`Record<string, T>`) are association lists in insertion order,
fallible platform primitives (`decodeURIComponent`, `lstatSync`, `stat`)
return `Option`, and the filesystem is an explicit record of query
functions.  All string primitives are re-implemented structurally over
`String.data` so that every definition evaluates by kernel reduction.
-/

set_option maxHeartbeats 1000000

namespace BunServer

/-! ## JS string primitives (ASCII-level models of the platform builtins) -/

/-- Model of JS `s.startsWith(pre)`: byte-for-byte on the char list. -/
def jsStartsWith (s pre : String) : Bool :=
  List.isPrefixOf pre.data s.data

/-- Model of JS `s.endsWith('/')` (the single-char uses in the sources). -/
def jsEndsWithSlash (s : String) : Bool :=
  s.data.getLast? == some '/'

/-- Model of JS `s.slice(0, -1)`: drop the last UTF-16 unit (here: char). -/
def jsDropLastChar (s : String) : String :=
  String.mk s.data.dropLast

/-- Model of JS `s.slice(n)` for a character count `n`. -/
def jsDropChars (s : String) (n : Nat) : String :=
  String.mk (s.data.drop n)

/-- Model of JS `s.includes(c)` for a single character. -/
def jsContainsChar (s : String) (c : Char) : Bool :=
  s.data.contains c

/-- Model of JS `s.toUpperCase()` restricted to ASCII (HTTP method names). -/
def jsToUpperCase (s : String) : String :=
  String.mk (s.data.map Char.toUpper)

/-- ASCII lowercasing (the case-insensitivity of `Headers` names). -/
def jsToLowerCase (s : String) : String :=
  String.mk (s.data.map Char.toLower)

/-- Model of JS `array.join(sep)` for string arrays. -/
def jsJoin (sep : String) : List String → String
  | [] => ""
  | [s] => s
  | s :: rest => s ++ sep ++ jsJoin sep rest

/-- Model of JS `s.split('/')` (on the char list; empty pieces kept). -/
def splitOnSlash : List Char → List (List Char)
  | [] => [[]]
  | '/' :: rest => [] :: splitOnSlash rest
  | c :: rest =>
    match splitOnSlash rest with
    | [] => [[c]]
    | seg :: segs => (c :: seg) :: segs

/-- JS `pathname.split('/').filter(Boolean)`: split and drop empty pieces. -/
def segmentsOf (s : String) : List String :=
  ((splitOnSlash s.data).map String.mk).filter (fun seg => seg != "")

/-! ## `decodeURIComponent` (the platform builtin, modelled with `Option` for
`URIError`): `%hh` escapes are read as bytes and the byte runs are decoded as
UTF-8; any malformed escape or malformed UTF-8 sequence fails. -/

/-- Value of one hex digit, `none` for a non-hex character (code points:
0-9 are 48-57, A-F are 65-70, a-f are 97-102). -/
def hexDigitVal (c : Char) : Option Nat :=
  let n := c.toNat
  if 48 ≤ n ∧ n ≤ 57 then some (n - 48)
  else if 65 ≤ n ∧ n ≤ 70 then some (n - 55)
  else if 97 ≤ n ∧ n ≤ 102 then some (n - 87)
  else none

/-- Byte value of a two-hex-digit escape body. -/
def hexPairVal (hi lo : Char) : Option Nat :=
  match hexDigitVal hi, hexDigitVal lo with
  | some a, some b => some (16 * a + b)
  | _, _ => none

/-- Core of `decodeURIComponent` over the char sequence. -/
def decodeCore : List Char → Option (List Char)
  | [] => some []
  | '%' :: h1 :: l1 :: rest =>
    match hexPairVal h1 l1 with
    | none => none
    | some b1 =>
      if b1 < 0x80 then
        (decodeCore rest).map (fun cs => Char.ofNat b1 :: cs)
      else if b1 < 0xC2 then none
      else if b1 ≤ 0xDF then
        match rest with
        | '%' :: h2 :: l2 :: rest2 =>
          match hexPairVal h2 l2 with
          | none => none
          | some b2 =>
            if 0x80 ≤ b2 ∧ b2 ≤ 0xBF then
              (decodeCore rest2).map
                (fun cs => Char.ofNat ((b1 - 0xC0) * 0x40 + (b2 - 0x80)) :: cs)
            else none
        | _ => none
      else if b1 ≤ 0xEF then
        match rest with
        | '%' :: h2 :: l2 :: '%' :: h3 :: l3 :: rest3 =>
          match hexPairVal h2 l2, hexPairVal h3 l3 with
          | some b2, some b3 =>
            if (0x80 ≤ b2 ∧ b2 ≤ 0xBF) ∧ (0x80 ≤ b3 ∧ b3 ≤ 0xBF)
                ∧ (b1 ≠ 0xE0 ∨ 0xA0 ≤ b2) ∧ (b1 ≠ 0xED ∨ b2 ≤ 0x9F) then
              (decodeCore rest3).map
                (fun cs =>
                  Char.ofNat ((b1 - 0xE0) * 0x1000 + (b2 - 0x80) * 0x40 + (b3 - 0x80)) :: cs)
            else none
          | _, _ => none
        | _ => none
      else if b1 ≤ 0xF4 then
        match rest with
        | '%' :: h2 :: l2 :: '%' :: h3 :: l3 :: '%' :: h4 :: l4 :: rest4 =>
          match hexPairVal h2 l2, hexPairVal h3 l3, hexPairVal h4 l4 with
          | some b2, some b3, some b4 =>
            if (0x80 ≤ b2 ∧ b2 ≤ 0xBF) ∧ (0x80 ≤ b3 ∧ b3 ≤ 0xBF) ∧ (0x80 ≤ b4 ∧ b4 ≤ 0xBF)
                ∧ (b1 ≠ 0xF0 ∨ 0x90 ≤ b2) ∧ (b1 ≠ 0xF4 ∨ b2 ≤ 0x8F) then
              (decodeCore rest4).map
                (fun cs =>
                  Char.ofNat ((b1 - 0xF0) * 0x40000 + (b2 - 0x80) * 0x1000
                    + (b3 - 0x80) * 0x40 + (b4 - 0x80)) :: cs)
            else none
          | _, _, _ => none
        | _ => none
      else none
  | '%' :: _ => none
  | c :: rest => (decodeCore rest).map (fun cs => c :: cs)

/-- `decodeURIComponent(s)`, with `none` standing for a thrown `URIError`. -/
def decodeURIComponent (s : String) : Option String :=
  (decodeCore s.data).map String.mk

/-! ## JS objects as association lists (insertion order preserved) -/

/-- Property read `r[k]` on a JS object modelled as an association list. -/
def recordLookup {H : Type} (r : List (String × H)) (k : String) : Option H :=
  (r.find? (fun kv => kv.1 == k)).map (fun kv => kv.2)

/-- Property write `r[k] = v`: overwrite in place, or append a new key. -/
def recordSet {H : Type} (r : List (String × H)) (k : String) (v : H) :
    List (String × H) :=
  if r.any (fun kv => kv.1 == k) then
    r.map (fun kv => if kv.1 == k then (k, v) else kv)
  else r ++ [(k, v)]

/-! ## Route matcher (`src/utils/loadRoutes.ts`) -/

abbrev RouteParams := List (String × String)

abbrev RouteHandlers (H : Type) := List (String × H)

abbrev Routes (H : Type) := List (String × RouteHandlers H)

structure RouteMatch (H : Type) where
  routePath : String
  handlers : RouteHandlers H
  params : RouteParams
deriving Repr, DecidableEq

/-- `normalizePathname` (loadRoutes.ts:73-74): strip one trailing slash,
except for the root path. -/
def normalizePathname (pathname : String) : String :=
  if pathname.data.length > 1 ∧ jsEndsWithSlash pathname then
    jsDropLastChar pathname
  else pathname

/-- `segmentMatches` (loadRoutes.ts:76-100).  The JS version mutates the
`params` object and returns a boolean; here the updated object is returned,
`none` meaning `false`. -/
def segmentMatches (routeSegment pathSegment : String) (params : RouteParams) :
    Option RouteParams :=
  if jsStartsWith routeSegment ":" then
    match decodeURIComponent pathSegment with
    | none => none
    | some decoded => some (recordSet params (jsDropChars routeSegment 1) decoded)
  else if routeSegment == pathSegment then some params else none

/-- The indexed loop of `matchPath` (loadRoutes.ts:113-119), including the
redundant falsy-segment guard of the source. -/
def matchSegments : List String → List String → RouteParams → Option RouteParams
  | [], [], params => some params
  | routeSeg :: rs, pathSeg :: ps, params =>
    if routeSeg == "" || pathSeg == "" then none
    else
      match segmentMatches routeSeg pathSeg params with
      | none => none
      | some params1 => matchSegments rs ps params1
  | _, _, _ => none

/-- `matchPath` (loadRoutes.ts:102-122). -/
def matchPath (routePath pathname : String) : Option RouteParams :=
  let normalizedRoutePath := normalizePathname routePath
  let normalizedPathname := normalizePathname pathname
  let routeSegments := segmentsOf normalizedRoutePath
  let pathSegments := segmentsOf normalizedPathname
  if routeSegments.length ≠ pathSegments.length then none
  else matchSegments routeSegments pathSegments []

/-- The parameterized-route scan of `matchRoute` (loadRoutes.ts:143-149):
`Object.entries` iteration in insertion order, keys without `:` skipped. -/
def scanParamRoutes {H : Type} :
    Routes H → String → Option (RouteMatch H)
  | [], _ => none
  | (routePath, handlers) :: rest, normalizedPathname =>
    if jsContainsChar routePath ':' then
      match matchPath routePath normalizedPathname with
      | some params => some ⟨routePath, handlers, params⟩
      | none => scanParamRoutes rest normalizedPathname
    else scanParamRoutes rest normalizedPathname

/-- `matchRoute` (loadRoutes.ts:134-152): exact lookup first, then the
parameterized scan. -/
def matchRoute {H : Type} (routes : Routes H) (pathname : String) :
    Option (RouteMatch H) :=
  let normalizedPathname := normalizePathname pathname
  match recordLookup routes normalizedPathname with
  | some exactHandlers => some ⟨normalizedPathname, exactHandlers, []⟩
  | none => scanParamRoutes routes normalizedPathname

/-! ## Requests, responses and handlers -/

/-- Body of a `Response`: `null`, a string, or a streamed file. -/
inductive RespBody
  | null
  | text (s : String)
  | stream (path : String)
deriving Repr, DecidableEq

/-- A `Response`: status, header list (insertion order), body. -/
structure HttpResponse where
  status : Nat
  headers : List (String × String)
  body : RespBody
deriving Repr, DecidableEq

/-- A `Request` as the handlers see it: method, URL pathname, and the
route-params attachment (`[]` models an absent `params` property; the code
only ever attaches a non-empty object). -/
structure JsRequest where
  method : String
  pathname : String
  params : RouteParams
deriving Repr, DecidableEq

/-- A route handler (`(req: Request) => Response`, promises elided). -/
abbrev Handler := JsRequest → HttpResponse

/-- `addRouteParamsToRequest` (loadRoutes.ts:124-132). -/
def addRouteParamsToRequest (req : JsRequest) (params : RouteParams) : JsRequest :=
  if params.isEmpty then req else { req with params := params }

structure ResolvedRoute where
  handler : Handler
  params : RouteParams
  routePath : String
  request : JsRequest

/-- `resolveRoute` (loadRoutes.ts:154-171). -/
def resolveRoute (routes : Routes Handler) (req : JsRequest) :
    Option ResolvedRoute :=
  let method := jsToUpperCase req.method
  let normalizedPathname := normalizePathname req.pathname
  match matchRoute routes normalizedPathname with
  | none => none
  | some m =>
    match recordLookup m.handlers method with
    | none => none
    | some handler =>
      some ⟨handler, m.params, m.routePath, addRouteParamsToRequest req m.params⟩

/-! ## Route table seeding (`loadRoutes`, loadRoutes.ts:341-376)

The directory walk and dynamic imports are I/O; `loadRoutes` is modelled as a
function of the scan's result (the table `scanDirectoryForRoutes` produced),
embedding the post-scan seeding step of loadRoutes.ts:357-369. -/

/-- The default `GET /` handler seeded when the scan found nothing
(loadRoutes.ts:359-364). -/
def defaultRouteHandler : Handler := fun _ =>
  { status := 200, headers := [("Content-Type", "text/plain")], body := .text "It works" }

/-- The tail of `loadRoutes`: seed the default route into an empty table. -/
def loadRoutesResult (scanned : Routes Handler) : Routes Handler :=
  if scanned.isEmpty then [("/", [("GET", defaultRouteHandler)])] else scanned

/-! ## CORS middleware (`src/middleware/cors.ts`, default options) -/

/-- `corsHeaders()` with the default options (cors.ts): credentials is false,
so no `Access-Control-Allow-Credentials` entry is produced. -/
def corsHeadersDefault : List (String × String) :=
  [("Access-Control-Allow-Origin", "*"),
   ("Access-Control-Allow-Methods", "GET, POST, PUT, DELETE, PATCH, OPTIONS"),
   ("Access-Control-Allow-Headers", "Content-Type, Authorization"),
   ("Access-Control-Max-Age", "86400")]

/-- `corsResponse()` (cors.ts): a 204 carrying the CORS headers. -/
def corsResponseDefault : HttpResponse :=
  { status := 204, headers := corsHeadersDefault, body := .null }

/-- `Headers.set(k, v)`: case-insensitive replace-or-append. -/
def headersSet (hs : List (String × String)) (k v : String) :
    List (String × String) :=
  if hs.any (fun kv => jsToLowerCase kv.1 == jsToLowerCase k) then
    hs.map (fun kv => if jsToLowerCase kv.1 == jsToLowerCase k then (k, v) else kv)
  else hs ++ [(k, v)]

/-- `addCors` (index.ts:33-44): copy the response, setting the CORS headers. -/
def addCors (response : HttpResponse) : HttpResponse :=
  { status := response.status,
    headers := corsHeadersDefault.foldl (fun acc kv => headersSet acc kv.1 kv.2) response.headers,
    body := response.body }

/-! ## The dispatch loop (`fetch`, index.ts:52-104) -/

/-- Lexicographic `≤` on char lists (JS default string comparison, ASCII). -/
def charListLe : List Char → List Char → Bool
  | [], _ => true
  | _ :: _, [] => false
  | a :: as, b :: bs => if a = b then charListLe as bs else decide (a < b)

/-- Stable insertion into a sorted list (model of JS `Array.sort()`). -/
def insertSorted (s : String) : List String → List String
  | [] => [s]
  | t :: ts => if charListLe s.data t.data then s :: t :: ts else t :: insertSorted s ts

/-- Model of JS `array.sort()` on strings (default lexicographic order). -/
def sortStrings : List String → List String
  | [] => []
  | s :: ss => insertSorted s (sortStrings ss)

/-- The `Allow` method list of the 405 branch (index.ts:85-90): keys
upper-cased and sorted, then `HEAD` pushed when `GET` is present without an
explicit `HEAD`. -/
def allowedMethodsOf {H : Type} (handlers : RouteHandlers H) : List String :=
  let sorted := sortStrings (handlers.map (fun kv => jsToUpperCase kv.1))
  if sorted.contains "GET" && !(sorted.contains "HEAD") then sorted ++ ["HEAD"]
  else sorted

/-- The route-dispatch tail of `fetch` (index.ts:66-103): resolve, else the
HEAD-via-GET fallback, else 405 with `Allow`, else 404. -/
def dispatchRoutes (routes : Routes Handler) (req : JsRequest) : HttpResponse :=
  match resolveRoute routes req with
  | some resolved => addCors (resolved.handler resolved.request)
  | none =>
    match matchRoute routes req.pathname with
    | none => addCors { status := 404, headers := [], body := .text "Not Found" }
    | some routeMatch =>
      match (if req.method == "HEAD" then recordLookup routeMatch.handlers "GET" else none) with
      | some getHandler =>
        let response := getHandler { method := "GET", pathname := req.pathname, params := [] }
        addCors { status := response.status, headers := response.headers, body := .null }
      | none =>
        addCors { status := 405,
                  headers := [("Allow", jsJoin ", " (allowedMethodsOf routeMatch.handlers))],
                  body := .text "Method Not Allowed" }

/-- `fetch` (index.ts:52-104): OPTIONS preflight, then the static-asset
branch for `/assets/` paths (the handler closure passed in as `assetH`),
then route dispatch. -/
def fetchDispatch (routes : Routes Handler) (assetH : JsRequest → HttpResponse)
    (req : JsRequest) : HttpResponse :=
  if req.method == "OPTIONS" then addCors corsResponseDefault
  else if jsStartsWith req.pathname "/assets/" then
    let staticResponse := assetH req
    if staticResponse.status != 404 then addCors staticResponse
    else dispatchRoutes routes req
  else dispatchRoutes routes req

/-! ## Static asset guard (`src/utils/staticAssets.ts`)

The filesystem is abstracted to the three queries the guard performs.  Paths
are POSIX (`sep = '/'`).  `path.resolve(base, seg)` is modelled as
`base ++ "/" ++ seg`: the guard only resolves segments that it has already
checked to be non-empty, free of separators and different from `.` and `..`,
and on that domain Node's `resolve` is exactly separator-joining. -/

structure LinkStats where
  isSymbolicLink : Bool
deriving Repr, DecidableEq

structure FileStats where
  isFile : Bool
deriving Repr, DecidableEq

/-- The filesystem as the guard queries it: `lstatSync` (`none` = throws),
`Bun.file(..).stat()` (`none` = rejects), and `Bun.file(..).size`. -/
structure FileSystem where
  lstat : String → Option LinkStats
  stat : String → Option FileStats
  size : String → Nat

/-- The fixed extension-to-MIME table (staticAssets.ts:4-29). -/
def mimeTypes : List (String × String) :=
  [(".html", "text/html"), (".css", "text/css"), (".js", "application/javascript"),
   (".mjs", "application/javascript"), (".json", "application/json"),
   (".png", "image/png"), (".jpg", "image/jpeg"), (".jpeg", "image/jpeg"),
   (".gif", "image/gif"), (".svg", "image/svg+xml"), (".ico", "image/x-icon"),
   (".webp", "image/webp"), (".woff", "font/woff"), (".woff2", "font/woff2"),
   (".ttf", "font/ttf"), (".eot", "application/vnd.ms-fontobject"),
   (".mp4", "video/mp4"), (".webm", "video/webm"), (".mp3", "audio/mpeg"),
   (".wav", "audio/wav"), (".pdf", "application/pdf"), (".txt", "text/plain"),
   (".xml", "application/xml"), (".wasm", "application/wasm")]

/-- Node `path.extname`: the part of the basename from its last dot, empty
when there is no dot or the only dot leads the basename. -/
def extnameOf (filePath : String) : String :=
  let base := ((splitOnSlash filePath.data).map String.mk).getLastD ""
  let rev := base.data.reverse
  let tail := rev.takeWhile (fun c => c != '.')
  if tail.length == rev.length then ""
  else if tail.length + 1 == rev.length then ""
  else String.mk ('.' :: tail.reverse)

/-- `MIME_TYPES[ext] || 'application/octet-stream'` (staticAssets.ts:110). -/
def contentTypeFor (filePath : String) : String :=
  (recordLookup mimeTypes (extnameOf filePath)).getD "application/octet-stream"

/-- JS `s.replace(/[\\/]+$/, '')` (staticAssets.ts:44). -/
def stripTrailingSeps (s : String) : String :=
  String.mk ((s.data.reverse.dropWhile (fun c => c == '/' || c == '\\')).reverse)

/-- `urlPrefix.endsWith('/') ? urlPrefix.slice(0, -1) : urlPrefix`
(staticAssets.ts:43). -/
def normalizedPrefixOf (urlPrefix : String) : String :=
  if jsEndsWithSlash urlPrefix then jsDropLastChar urlPrefix else urlPrefix

/-- The accepting side of the prefix check (staticAssets.ts:48-50): the
pathname starts with `prefix + '/'` and is not the bare prefix. -/
def prefixAccepted (urlPrefix pathname : String) : Bool :=
  jsStartsWith pathname (normalizedPrefixOf urlPrefix ++ "/")
    && pathname != normalizedPrefixOf urlPrefix

/-- `url.pathname.slice(prefix.length + 1).split('/').filter(Boolean)`
(staticAssets.ts:52-55). -/
def rawSegmentsOf (urlPrefix pathname : String) : List String :=
  segmentsOf (jsDropChars pathname ((normalizedPrefixOf urlPrefix).data.length + 1))

/-- `decoded === '..' || decoded === '.' || decoded.includes('/') ||
decoded.includes('\\')` (staticAssets.ts:61). -/
def isTraversalSegment (decoded : String) : Bool :=
  decoded == ".." || decoded == "." || jsContainsChar decoded '/'
    || jsContainsChar decoded '\\'

/-- Outcome of the decode-and-validate loop (staticAssets.ts:57-69). -/
inductive SegScan
  | fail400
  | fail404
  | ok (relativePathParts : List String)
deriving Repr, DecidableEq

/-- The decode-and-validate loop over the raw segments: the first decode
failure gives 400, the first traversal segment gives 404. -/
def scanSegments : List String → SegScan
  | [] => .ok []
  | segment :: rest =>
    match decodeURIComponent segment with
    | none => .fail400
    | some decoded =>
      if isTraversalSegment decoded then .fail404
      else
        match scanSegments rest with
        | .ok parts => .ok (decoded :: parts)
        | r => r

/-- The per-segment symlink walk (staticAssets.ts:75-88): `true` when some
intermediate path is a symlink or `lstatSync` throws. -/
def symlinkBlocked (fs : FileSystem) : String → List String → Bool
  | _, [] => false
  | currentPath, segment :: rest =>
    let filePath := currentPath ++ "/" ++ segment
    match fs.lstat filePath with
    | none => true
    | some stats => stats.isSymbolicLink || symlinkBlocked fs filePath rest

/-- `resolve(assetsRoot, ...relativePathParts)` on pre-validated segments. -/
def resolveParts (base : String) (parts : List String) : String :=
  parts.foldl (fun acc seg => acc ++ "/" ++ seg) base

def notFound404 : HttpResponse :=
  { status := 404, headers := [], body := .text "Not Found" }

def badRequest400 : HttpResponse :=
  { status := 400, headers := [], body := .text "Bad Request" }

/-- The request handler returned by `staticAssets` (staticAssets.ts:46-120),
for a configuration with resolved root `assetsRoot`, URL prefix `urlPrefix`
and cache-control value `cacheControl`, applied to a request with path
`pathname`. -/
def staticAssetsServe (fs : FileSystem) (assetsRoot urlPrefix cacheControl : String)
    (pathname : String) : HttpResponse :=
  let safeRoot := stripTrailingSeps assetsRoot
  if !(prefixAccepted urlPrefix pathname) then notFound404
  else
    match scanSegments (rawSegmentsOf urlPrefix pathname) with
    | .fail400 => badRequest400
    | .fail404 => notFound404
    | .ok relativePathParts =>
      if relativePathParts.isEmpty then notFound404
      else if symlinkBlocked fs safeRoot relativePathParts then notFound404
      else
        let filePath := resolveParts assetsRoot relativePathParts
        if !(jsStartsWith filePath (safeRoot ++ "/")) && filePath != safeRoot then
          notFound404
        else
          match fs.stat filePath with
          | none => notFound404
          | some stats =>
            if !stats.isFile then notFound404
            else
              { status := 200,
                headers := [("Content-Type", contentTypeFor filePath),
                            ("Content-Length", toString (fs.size filePath)),
                            ("Cache-Control", cacheControl),
                            ("Accept-Ranges", "bytes")],
                body := .stream filePath }

/-! ## Helper lemmas -/

theorem strDataAppend (s t : String) : (s ++ t).data = s.data ++ t.data := by
  cases s; cases t; rfl

theorem strMkData (s : String) : String.mk s.data = s := rfl

theorem strDataNeNil {q : String} (h : q ≠ "") : q.data ≠ [] := by
  intro hnil
  apply h
  cases q with
  | mk l =>
    have hl : l = [] := hnil
    subst hl
    rfl

/-- A successful `matchSegments` run decoded every parameter position. -/
theorem matchSegments_param_decoded :
    ∀ (rs ps : List String) (a out : RouteParams),
      matchSegments rs ps a = some out →
      ∀ pair ∈ rs.zip ps, jsStartsWith pair.1 ":" = true →
        (∃ d, decodeURIComponent pair.2 = some d) ∧ pair.2 ≠ "" := by
  intro rs
  induction rs with
  | nil => intro ps a out _ pair hmem; simp at hmem
  | cons r rs ih =>
    intro ps a out hmatch pair hmem hcolon
    cases ps with
    | nil => simp [matchSegments] at hmatch
    | cons p ps' =>
      simp only [matchSegments] at hmatch
      split at hmatch
      · exact absurd hmatch (by simp)
      · rename_i hguard
        have hp : p ≠ "" := by
          intro hp'
          subst hp'
          simp at hguard
        split at hmatch
        · exact absurd hmatch (by simp)
        · rename_i a1 hseg
          rcases List.mem_cons.mp (by simpa using hmem) with hhead | htail
          · subst hhead
            refine ⟨?_, hp⟩
            simp only [segmentMatches, hcolon, if_true] at hseg
            split at hseg
            · exact absurd hseg (by simp)
            · rename_i d hdec
              exact ⟨d, hdec⟩
          · exact ih ps' a1 out hmatch pair htail hcolon

/-! ## Claim theorems -/

/-- C3: whenever the normalized request path is itself a key of the table,
`matchRoute` returns that exact entry with empty params; the parameterized
scan is not consulted. -/
theorem matchRoute_exact_wins {H : Type} (routes : Routes H) (pathname : String)
    (hs : RouteHandlers H)
    (h : recordLookup routes (normalizePathname pathname) = some hs) :
    matchRoute routes pathname = some ⟨normalizePathname pathname, hs, []⟩ := by
  simp only [matchRoute]
  rw [h]

theorem matchRoute_exact_wins_witness :
    recordLookup [("/items/abc", [("GET", (1 : Nat))]), ("/items/:id", [("GET", 2)])]
        (normalizePathname "/items/abc") = some [("GET", 1)]
    ∧ matchPath "/items/:id" "/items/abc" = some [("id", "abc")]
    ∧ matchRoute [("/items/abc", [("GET", (1 : Nat))]), ("/items/:id", [("GET", 2)])]
        "/items/abc"
        = some ⟨normalizePathname "/items/abc", [("GET", 1)], []⟩ :=
  ⟨by decide, by decide,
    matchRoute_exact_wins [("/items/abc", [("GET", 1)]), ("/items/:id", [("GET", 2)])]
      "/items/abc" [("GET", 1)] (by decide)⟩

/-- C4: a `matchPath` success forces equal segment counts, every parameter
position holds a non-empty segment that percent-decodes; `/items/:id`
matches `/items/42` with `id = "42"` and fails on `/items/42/extra`. -/
theorem matchPath_segment_spec :
    (∀ (routePath pathname : String) (ps : RouteParams),
        matchPath routePath pathname = some ps →
        (segmentsOf (normalizePathname routePath)).length
            = (segmentsOf (normalizePathname pathname)).length
          ∧ ∀ pair ∈ (segmentsOf (normalizePathname routePath)).zip
                (segmentsOf (normalizePathname pathname)),
              jsStartsWith pair.1 ":" = true →
                (∃ d, decodeURIComponent pair.2 = some d) ∧ pair.2 ≠ "")
    ∧ matchPath "/items/:id" "/items/42" = some [("id", "42")]
    ∧ matchPath "/items/:id" "/items/42/extra" = none := by
  refine ⟨?_, by decide, by decide⟩
  intro routePath pathname ps h
  simp only [matchPath] at h
  split at h
  · exact absurd h (by simp)
  · rename_i hlen
    exact ⟨by omega, matchSegments_param_decoded _ _ [] ps h⟩

theorem matchPath_segment_spec_witness :
    matchPath "/items/:id" "/items/42" = some [("id", "42")]
    ∧ (segmentsOf (normalizePathname "/items/:id")).length
        = (segmentsOf (normalizePathname "/items/42")).length :=
  ⟨by decide,
    (matchPath_segment_spec.1 "/items/:id" "/items/42" [("id", "42")] (by decide)).1⟩

/-- C5: parameter matching applies no `..`-rejection: any segment that
decodes is bound as the parameter value, `%2e%2e` is bound as `..` — while
the static-asset guard 404s the analogous request. -/
theorem paramSegment_accepts_encoded_dotdot :
    (∀ (name seg : String) (params : RouteParams) (d : String),
        decodeURIComponent seg = some d →
        segmentMatches (":" ++ name) seg params = some (recordSet params name d))
    ∧ (∀ (H : Type) (h : H),
        matchRoute [("/items/:id", [("GET", h)])] "/items/%2e%2e"
          = some ⟨"/items/:id", [("GET", h)], [("id", "..")]⟩)
    ∧ (∀ (fs : FileSystem) (assetsRoot cacheControl : String),
        (staticAssetsServe fs assetsRoot "/assets" cacheControl
            "/assets/%2e%2e").status = 404) := by
  refine ⟨?_, fun H h => rfl, fun fs assetsRoot cacheControl => rfl⟩
  intro name seg params d hdec
  have hcolon : jsStartsWith (":" ++ name) ":" = true := by
    simp [jsStartsWith, strDataAppend]
  have hdropStr : jsDropChars (":" ++ name) 1 = name := by
    simp only [jsDropChars, strDataAppend]
    exact strMkData name
  simp only [segmentMatches, hcolon, if_true, hdec, hdropStr]

theorem paramSegment_accepts_encoded_dotdot_witness :
    decodeURIComponent "%2e%2e" = some ".."
    ∧ segmentMatches (":" ++ "id") "%2e%2e" [] = some (recordSet [] "id" "..") :=
  ⟨by decide, paramSegment_accepts_encoded_dotdot.1 "id" "%2e%2e" [] ".." (by decide)⟩

/-- C8 counterexample: matching is not invariant under removing *all*
trailing slashes — `/a//` does not match the route `/a` although `/a` does
(only one trailing slash is stripped). -/
theorem matchRoute_trailing_all_counterexample :
    matchRoute [("/a", [("GET", (0 : Nat))])] "/a//"
      ≠ matchRoute [("/a", [("GET", (0 : Nat))])] "/a" := by decide

/-- C8 (amended): for a path with exactly one trailing slash, matching is
the same as matching the path with that single slash removed. -/
theorem matchRoute_single_trailing_slash {H : Type} (routes : Routes H)
    (q : String) (h1 : q ≠ "") (h2 : jsEndsWithSlash q = false) :
    matchRoute routes (q ++ "/") = matchRoute routes q := by
  have hq : normalizePathname q = q := by
    unfold normalizePathname
    rw [if_neg]
    intro hcon
    rw [h2] at hcon
    exact absurd hcon.2 (by simp)
  have hdata : (q ++ "/").data = q.data ++ ['/'] := strDataAppend q "/"
  have hq2 : normalizePathname (q ++ "/") = q := by
    have hcond : (q ++ "/").data.length > 1 ∧ jsEndsWithSlash (q ++ "/") = true := by
      constructor
      · rw [hdata, List.length_append]
        have hpos : 0 < q.data.length := List.length_pos.mpr (strDataNeNil h1)
        have hone : (['/'] : List Char).length = 1 := rfl
        omega
      · simp [jsEndsWithSlash, hdata]
    unfold normalizePathname
    rw [if_pos hcond]
    simp only [jsDropLastChar, hdata, List.dropLast_concat]
  simp only [matchRoute, hq, hq2]

theorem matchRoute_single_trailing_slash_witness :
    ("/a" : String) ≠ "" ∧ jsEndsWithSlash "/a" = false
    ∧ matchRoute [("/a", [("GET", (0 : Nat))])] ("/a" ++ "/")
        = matchRoute [("/a", [("GET", (0 : Nat))])] "/a" :=
  ⟨by decide, by decide,
    matchRoute_single_trailing_slash [("/a", [("GET", 0)])] "/a" (by decide) (by decide)⟩

/-- C9: an empty scan result is seeded with exactly the default `GET /`
fixed-text route; a non-empty scan result is returned untouched. -/
theorem loadRoutes_default_seed :
    (∀ scanned : Routes Handler, scanned = [] →
        loadRoutesResult scanned = [("/", [("GET", defaultRouteHandler)])])
    ∧ (∀ scanned : Routes Handler, scanned ≠ [] → loadRoutesResult scanned = scanned)
    ∧ ∀ req, defaultRouteHandler req =
        { status := 200, headers := [("Content-Type", "text/plain")],
          body := .text "It works" } := by
  refine ⟨?_, ?_, fun _ => rfl⟩
  · intro s h; subst h; rfl
  · intro s h
    unfold loadRoutesResult
    rw [if_neg]
    simpa [List.isEmpty_iff] using h

theorem loadRoutes_default_seed_witness :
    loadRoutesResult [] = [("/", [("GET", defaultRouteHandler)])]
    ∧ loadRoutesResult [("/x", [("GET", defaultRouteHandler)])]
        = [("/x", [("GET", defaultRouteHandler)])] :=
  ⟨loadRoutes_default_seed.1 [] rfl,
    loadRoutes_default_seed.2.1 [("/x", [("GET", defaultRouteHandler)])] (by simp)⟩

/-- C10: a literal route segment is compared byte-for-byte against the raw
request segment (no decoding), the exact lookup is on the raw normalized
path, so `/items/%61bc` does not match the literal route `/items/abc` even
though `%61bc` decodes to `abc`. -/
theorem literal_segment_raw_comparison :
    (∀ (routeSegment pathSegment : String) (params : RouteParams),
        jsStartsWith routeSegment ":" = false →
        segmentMatches routeSegment pathSegment params
          = if routeSegment == pathSegment then some params else none)
    ∧ decodeURIComponent "%61bc" = some "abc"
    ∧ matchRoute [("/items/abc", [("GET", (0 : Nat))])] "/items/%61bc" = none := by
  refine ⟨?_, by decide, by decide⟩
  intro r p a h
  simp [segmentMatches, h]

theorem literal_segment_raw_comparison_witness :
    jsStartsWith "abc" ":" = false
    ∧ segmentMatches "abc" "%61bc" []
        = (if ("abc" : String) == "%61bc" then some [] else none) :=
  ⟨by decide, literal_segment_raw_comparison.1 "abc" "%61bc" [] (by decide)⟩

/-- A plain 200 handler, used as an opaque handler value in examples. -/
def okHandler : Handler := fun _ =>
  { status := 200, headers := [("X-Kind", "ok")], body := .text "ok" }

/-- A handler whose response depends on the route-params attachment. -/
def paramProbe : Handler := fun req =>
  if req.params.isEmpty then { status := 500, headers := [], body := .null }
  else { status := 200, headers := [], body := .text "ok" }

/-- C2 counterexample: a route with handlers for exactly `{GET, POST}`
receiving `DELETE` answers 405 with `Allow: GET, POST, HEAD` — `HEAD` is
pushed *after* the alphabetical sort — not the claimed `GET, HEAD, POST`. -/
theorem dispatch_405_allow_counterexample :
    recordLookup (fetchDispatch [("/x", [("GET", okHandler), ("POST", okHandler)])]
        (fun _ => notFound404) ⟨"DELETE", "/x", []⟩).headers "Allow"
      = some "GET, POST, HEAD"
    ∧ recordLookup (fetchDispatch [("/x", [("GET", okHandler), ("POST", okHandler)])]
        (fun _ => notFound404) ⟨"DELETE", "/x", []⟩).headers "Allow"
      ≠ some "GET, HEAD, POST"
    ∧ (fetchDispatch [("/x", [("GET", okHandler), ("POST", okHandler)])]
        (fun _ => notFound404) ⟨"DELETE", "/x", []⟩).status = 405 := by
  refine ⟨by decide, by decide, by decide⟩

/-- C2 (amended): a matched route whose handler table lacks the request's
method answers 405, with `Allow` listing the supported methods sorted and
`HEAD` appended at the end when `GET` is present without `HEAD` (OPTIONS
preflight and the HEAD-via-GET fallback take precedence and are excluded). -/
theorem dispatch_405_allow (routes : Routes Handler)
    (assetH : JsRequest → HttpResponse) (req : JsRequest) (m : RouteMatch Handler)
    (hOpt : (req.method == "OPTIONS") = false)
    (hAssets : jsStartsWith req.pathname "/assets/" = false)
    (hres : resolveRoute routes req = none)
    (hm : matchRoute routes req.pathname = some m)
    (hHeadGet : (if req.method == "HEAD" then recordLookup m.handlers "GET" else none)
        = none) :
    fetchDispatch routes assetH req
      = addCors { status := 405,
                  headers := [("Allow", jsJoin ", " (allowedMethodsOf m.handlers))],
                  body := .text "Method Not Allowed" } := by
  simp only [fetchDispatch, hOpt, hAssets, Bool.false_eq_true, if_false,
    dispatchRoutes, hres, hm, hHeadGet]

theorem dispatch_405_allow_witness :
    (("DELETE" : String) == "OPTIONS") = false
    ∧ jsStartsWith "/x" "/assets/" = false
    ∧ resolveRoute [("/x", [("GET", okHandler), ("POST", okHandler)])]
        ⟨"DELETE", "/x", []⟩ = none
    ∧ matchRoute [("/x", [("GET", okHandler), ("POST", okHandler)])] "/x"
        = some ⟨"/x", [("GET", okHandler), ("POST", okHandler)], []⟩
    ∧ fetchDispatch [("/x", [("GET", okHandler), ("POST", okHandler)])]
        (fun _ => notFound404) ⟨"DELETE", "/x", []⟩
        = addCors { status := 405,
                    headers := [("Allow", jsJoin ", "
                      (allowedMethodsOf [("GET", okHandler), ("POST", okHandler)]))],
                    body := .text "Method Not Allowed" } :=
  ⟨rfl, rfl, rfl, rfl,
    dispatch_405_allow [("/x", [("GET", okHandler), ("POST", okHandler)])]
      (fun _ => notFound404) ⟨"DELETE", "/x", []⟩
      ⟨"/x", [("GET", okHandler), ("POST", okHandler)], []⟩ rfl rfl rfl rfl rfl⟩

/-- C7 counterexample: on a parameterized route, the HEAD fallback invokes
the GET handler *without* the route-params attachment, so its status can
differ from the GET dispatch (500 vs 200 here) — the claim's "same status
and headers as the GET response" fails for parameter-reading handlers. -/
theorem head_get_divergence_counterexample :
    (fetchDispatch [("/items/:id", [("GET", paramProbe)])] (fun _ => notFound404)
        ⟨"HEAD", "/items/42", []⟩).status = 500
    ∧ (fetchDispatch [("/items/:id", [("GET", paramProbe)])] (fun _ => notFound404)
        ⟨"GET", "/items/42", []⟩).status = 200 :=
  ⟨rfl, rfl⟩

/-- C7 (amended): for a matched route with a GET handler, no HEAD handler
and no bound parameters, a HEAD request returns exactly the GET handler's
status and headers with a null body, and agrees with the GET dispatch. -/
theorem dispatch_head_falls_back_to_get (routes : Routes Handler)
    (assetH : JsRequest → HttpResponse) (req : JsRequest) (m : RouteMatch Handler)
    (g : Handler)
    (hmeth : req.method = "HEAD")
    (hAssets : jsStartsWith req.pathname "/assets/" = false)
    (hNorm : normalizePathname req.pathname = req.pathname)
    (hm : matchRoute routes req.pathname = some m)
    (hget : recordLookup m.handlers "GET" = some g)
    (hnohead : recordLookup m.handlers "HEAD" = none)
    (hparams : m.params = []) :
    (fetchDispatch routes assetH req
        = addCors { status := (g ⟨"GET", req.pathname, []⟩).status,
                    headers := (g ⟨"GET", req.pathname, []⟩).headers,
                    body := .null })
    ∧ fetchDispatch routes assetH ⟨"GET", req.pathname, []⟩
        = addCors (g ⟨"GET", req.pathname, []⟩)
    ∧ (fetchDispatch routes assetH req).status
        = (fetchDispatch routes assetH ⟨"GET", req.pathname, []⟩).status
    ∧ (fetchDispatch routes assetH req).headers
        = (fetchDispatch routes assetH ⟨"GET", req.pathname, []⟩).headers
    ∧ (fetchDispatch routes assetH req).body = .null := by
  have hup : jsToUpperCase "HEAD" = "HEAD" := rfl
  have hupg : jsToUpperCase "GET" = "GET" := rfl
  have hres : resolveRoute routes req = none := by
    simp only [resolveRoute, hmeth, hup, hNorm, hm, hnohead]
  have hhead : fetchDispatch routes assetH req
      = addCors { status := (g ⟨"GET", req.pathname, []⟩).status,
                  headers := (g ⟨"GET", req.pathname, []⟩).headers,
                  body := .null } := by
    simp [fetchDispatch, hmeth, hAssets, dispatchRoutes, hres, hm, hget]
  have hgetd : fetchDispatch routes assetH ⟨"GET", req.pathname, []⟩
      = addCors (g ⟨"GET", req.pathname, []⟩) := by
    have hres2 : resolveRoute routes ⟨"GET", req.pathname, []⟩
        = some ⟨g, m.params, m.routePath,
            addRouteParamsToRequest ⟨"GET", req.pathname, []⟩ m.params⟩ := by
      simp only [resolveRoute, hupg, hNorm, hm, hget]
    simp [fetchDispatch, hAssets, dispatchRoutes, hres2, hparams,
      addRouteParamsToRequest]
  refine ⟨hhead, hgetd, ?_, ?_, ?_⟩
  · rw [hhead, hgetd]; simp [addCors]
  · rw [hhead, hgetd]; simp [addCors]
  · rw [hhead]; simp [addCors]

theorem dispatch_head_falls_back_to_get_witness :
    matchRoute [("/doc", [("GET", okHandler)])] "/doc"
        = some ⟨"/doc", [("GET", okHandler)], []⟩
    ∧ (fetchDispatch [("/doc", [("GET", okHandler)])] (fun _ => notFound404)
          ⟨"HEAD", "/doc", []⟩).status
        = (fetchDispatch [("/doc", [("GET", okHandler)])] (fun _ => notFound404)
          ⟨"GET", "/doc", []⟩).status
    ∧ (fetchDispatch [("/doc", [("GET", okHandler)])] (fun _ => notFound404)
          ⟨"HEAD", "/doc", []⟩).headers
        = (fetchDispatch [("/doc", [("GET", okHandler)])] (fun _ => notFound404)
          ⟨"GET", "/doc", []⟩).headers
    ∧ (fetchDispatch [("/doc", [("GET", okHandler)])] (fun _ => notFound404)
          ⟨"HEAD", "/doc", []⟩).body = .null :=
  ⟨rfl,
    (dispatch_head_falls_back_to_get [("/doc", [("GET", okHandler)])]
      (fun _ => notFound404) ⟨"HEAD", "/doc", []⟩ ⟨"/doc", [("GET", okHandler)], []⟩
      okHandler rfl rfl rfl rfl rfl rfl rfl).2.2.1,
    (dispatch_head_falls_back_to_get [("/doc", [("GET", okHandler)])]
      (fun _ => notFound404) ⟨"HEAD", "/doc", []⟩ ⟨"/doc", [("GET", okHandler)], []⟩
      okHandler rfl rfl rfl rfl rfl rfl rfl).2.2.2.1,
    (dispatch_head_falls_back_to_get [("/doc", [("GET", okHandler)])]
      (fun _ => notFound404) ⟨"HEAD", "/doc", []⟩ ⟨"/doc", [("GET", okHandler)], []⟩
      okHandler rfl rfl rfl rfl rfl rfl rfl).2.2.2.2⟩

/-- When every raw segment decodes and some decoded segment is a traversal
segment, the scan fails with 404. -/
theorem scanSegments_traversal_fail404 :
    ∀ (l : List String),
      (∀ seg ∈ l, (decodeURIComponent seg).isSome = true) →
      (∃ seg ∈ l, ∃ d, decodeURIComponent seg = some d ∧ isTraversalSegment d = true) →
      scanSegments l = .fail404 := by
  intro l
  induction l with
  | nil => intro _ hex; simp at hex
  | cons s rest ih =>
    intro hall hex
    have hs := hall s (by simp)
    rcases Option.isSome_iff_exists.mp hs with ⟨d0, hd0⟩
    simp only [scanSegments, hd0]
    by_cases hbad : isTraversalSegment d0 = true
    · rw [if_pos hbad]
    · rw [if_neg hbad]
      have hrest : scanSegments rest = .fail404 := by
        apply ih
        · intro seg hm
          exact hall seg (by simp [hm])
        · rcases hex with ⟨seg, hmem, d, hd, hbadd⟩
          rcases List.mem_cons.mp hmem with he | ht
          · subst he
            rw [hd0] at hd
            cases hd
            exact absurd hbadd hbad
          · exact ⟨seg, ht, d, hd, hbadd⟩
      rw [hrest]

/-- A scan that fails with 400 contains a segment whose decoding fails. -/
theorem scanSegments_fail400_decode :
    ∀ (l : List String), scanSegments l = .fail400 →
      ∃ seg ∈ l, decodeURIComponent seg = none := by
  intro l
  induction l with
  | nil => intro h; simp [scanSegments] at h
  | cons s rest ih =>
    intro h
    cases hdec : decodeURIComponent s with
    | none => exact ⟨s, by simp, hdec⟩
    | some d =>
      simp only [scanSegments, hdec] at h
      by_cases hbad : isTraversalSegment d = true
      · rw [if_pos hbad] at h
        exact absurd h (by simp)
      · rw [if_neg hbad] at h
        cases hrest : scanSegments rest with
        | fail400 =>
          rcases ih hrest with ⟨seg, hm, hd⟩
          exact ⟨seg, by simp [hm], hd⟩
        | fail404 => rw [hrest] at h; simp at h
        | ok parts => rw [hrest] at h; simp at h

/-- Exhaustive shape analysis of the guard: every outcome is `notFound404`,
the 400 branch (exactly when the prefix is accepted and the scan fails
decoding), or the 200 stream of a path the containment check admitted. -/
theorem staticAssetsServe_cases (fs : FileSystem)
    (assetsRoot urlPrefix cacheControl pathname : String) :
    staticAssetsServe fs assetsRoot urlPrefix cacheControl pathname = notFound404
    ∨ (staticAssetsServe fs assetsRoot urlPrefix cacheControl pathname = badRequest400
        ∧ prefixAccepted urlPrefix pathname = true
        ∧ scanSegments (rawSegmentsOf urlPrefix pathname) = .fail400)
    ∨ (∃ filePath,
        (jsStartsWith filePath (stripTrailingSeps assetsRoot ++ "/") = true
          ∨ filePath = stripTrailingSeps assetsRoot)
        ∧ staticAssetsServe fs assetsRoot urlPrefix cacheControl pathname
            = { status := 200,
                headers := [("Content-Type", contentTypeFor filePath),
                            ("Content-Length", toString (fs.size filePath)),
                            ("Cache-Control", cacheControl),
                            ("Accept-Ranges", "bytes")],
                body := .stream filePath }) := by
  simp only [staticAssetsServe]
  split
  · exact Or.inl rfl
  · rename_i hpre
    have hp : prefixAccepted urlPrefix pathname = true := by
      simpa using hpre
    split
    · rename_i hscan
      exact Or.inr (Or.inl ⟨rfl, hp, hscan⟩)
    · exact Or.inl rfl
    · split
      · exact Or.inl rfl
      · split
        · exact Or.inl rfl
        · split
          · exact Or.inl rfl
          · rename_i hguard
            split
            · exact Or.inl rfl
            · split
              · exact Or.inl rfl
              · refine Or.inr (Or.inr ⟨_, ?_, rfl⟩)
                rcases Bool.not_eq_true _ ▸ hguard with hg
                simp only [Bool.and_eq_false_iff, Bool.not_eq_true',
                  Bool.not_eq_false, bne_eq_false_iff_eq] at hg
                rcases hg with hg | hg
                · exact Or.inl (by simpa using hg)
                · exact Or.inr hg

/-- C1: with every raw segment decodable, a request carrying a decoded `.`,
`..` or separator-containing segment is answered 404; and every 200 answer
streams a path that equals the root or extends `root + '/'`. -/
theorem staticAssets_guard (fs : FileSystem)
    (assetsRoot urlPrefix cacheControl pathname : String) :
    ((∀ seg ∈ rawSegmentsOf urlPrefix pathname, (decodeURIComponent seg).isSome = true) →
      (∃ seg ∈ rawSegmentsOf urlPrefix pathname, ∃ d,
          decodeURIComponent seg = some d ∧ isTraversalSegment d = true) →
      (staticAssetsServe fs assetsRoot urlPrefix cacheControl pathname).status = 404)
    ∧ ((staticAssetsServe fs assetsRoot urlPrefix cacheControl pathname).status = 200 →
      ∃ p, (staticAssetsServe fs assetsRoot urlPrefix cacheControl pathname).body
            = .stream p
        ∧ (jsStartsWith p (stripTrailingSeps assetsRoot ++ "/") = true
            ∨ p = stripTrailingSeps assetsRoot)) := by
  constructor
  · intro hall hex
    have hscan := scanSegments_traversal_fail404 _ hall hex
    simp only [staticAssetsServe, hscan]
    split
    · rfl
    · rfl
  · intro h200
    rcases staticAssetsServe_cases fs assetsRoot urlPrefix cacheControl pathname with
      h | ⟨h, _, _⟩ | ⟨p, hcont, h⟩
    · rw [h] at h200
      exact absurd h200 (by decide)
    · rw [h] at h200
      exact absurd h200 (by decide)
    · rw [h]
      exact ⟨p, rfl, hcont⟩

theorem staticAssets_guard_witness :
    (∀ seg ∈ rawSegmentsOf "/assets" "/assets/../../etc/passwd",
        (decodeURIComponent seg).isSome = true)
    ∧ (∃ seg ∈ rawSegmentsOf "/assets" "/assets/../../etc/passwd", ∃ d,
        decodeURIComponent seg = some d ∧ isTraversalSegment d = true)
    ∧ (staticAssetsServe ⟨fun _ => none, fun _ => none, fun _ => 0⟩ "/public/assets"
        "/assets" "public, max-age=31536000, immutable"
        "/assets/../../etc/passwd").status = 404 :=
  ⟨by decide, by decide,
    (staticAssets_guard ⟨fun _ => none, fun _ => none, fun _ => 0⟩ "/public/assets"
      "/assets" "public, max-age=31536000, immutable" "/assets/../../etc/passwd").1
      (by decide) (by decide)⟩

/-- C6: the guard's only statuses are 200, 400 and 404; 400 happens exactly
when the prefix is accepted and the segment scan hits a decode failure, and
such a scan always exhibits a segment whose percent-decoding fails. -/
theorem staticAssets_status_taxonomy (fs : FileSystem)
    (assetsRoot urlPrefix cacheControl pathname : String) :
    ((staticAssetsServe fs assetsRoot urlPrefix cacheControl pathname).status = 200
      ∨ (staticAssetsServe fs assetsRoot urlPrefix cacheControl pathname).status = 400
      ∨ (staticAssetsServe fs assetsRoot urlPrefix cacheControl pathname).status = 404)
    ∧ ((staticAssetsServe fs assetsRoot urlPrefix cacheControl pathname).status = 400
        ↔ prefixAccepted urlPrefix pathname = true
          ∧ scanSegments (rawSegmentsOf urlPrefix pathname) = .fail400)
    ∧ (scanSegments (rawSegmentsOf urlPrefix pathname) = .fail400 →
        ∃ seg ∈ rawSegmentsOf urlPrefix pathname, decodeURIComponent seg = none) := by
  refine ⟨?_, ⟨?_, ?_⟩, scanSegments_fail400_decode _⟩
  · rcases staticAssetsServe_cases fs assetsRoot urlPrefix cacheControl pathname with
      h | ⟨h, _, _⟩ | ⟨p, _, h⟩
    · exact Or.inr (Or.inr (by rw [h]; rfl))
    · exact Or.inr (Or.inl (by rw [h]; rfl))
    · exact Or.inl (by rw [h])
  · intro h400
    rcases staticAssetsServe_cases fs assetsRoot urlPrefix cacheControl pathname with
      h | ⟨_, hp, hscan⟩ | ⟨p, _, h⟩
    · rw [h] at h400
      exact absurd h400 (by decide)
    · exact ⟨hp, hscan⟩
    · rw [h] at h400
      exact absurd h400 (by simp)
  · intro ⟨hp, hscan⟩
    have hnp : ¬ ((!prefixAccepted urlPrefix pathname) = true) := by simp [hp]
    simp only [staticAssetsServe, hscan]
    rw [if_neg hnp]
    exact rfl

theorem staticAssets_status_taxonomy_witness :
    prefixAccepted "/assets" "/assets/%zz" = true
    ∧ scanSegments (rawSegmentsOf "/assets" "/assets/%zz") = .fail400
    ∧ (staticAssetsServe ⟨fun _ => none, fun _ => none, fun _ => 0⟩ "/public/assets"
        "/assets" "public, max-age=31536000, immutable" "/assets/%zz").status = 400 :=
  ⟨by decide, by decide,
    (staticAssets_status_taxonomy ⟨fun _ => none, fun _ => none, fun _ => 0⟩
      "/public/assets" "/assets" "public, max-age=31536000, immutable"
      "/assets/%zz").2.1.mpr ⟨by decide, by decide⟩⟩

end BunServer
